import Mathlib

/-!
Verification development for the katportalclient websocket client
(src/katportalclient/client.py).

The Python client is shallowly embedded: every stateful method is rendered
as an explicit state-transformer on a record of the mutable fields of
`KATPortalClient`, and fallible paths (Python exceptions) are rendered with
`Option`/`Except`.  Values carried inside JSON-RPC params are modelled with
a small inductive `Param` type; opaque JSON payloads are modelled as
strings.  Wall-clock time, the tornado event loop and the actual network
are oracle inputs to the functions that depend on them.
-/

set_option autoImplicit false

namespace Katportal

/-- A JSON value carried in the params of a JSON-RPC request
(namespace strings, subscription patterns or pattern lists, strategy
strings, the `persist_to_redis` boolean, or Python `None`). -/
inductive Param where
  | str : String → Param
  | strList : List String → Param
  | pyBool : Bool → Param
  | pyNone : Param
  deriving DecidableEq, Repr

/-- `request.JSONRPCRequest` as used by client.py: a method name, an
ordered params list and a unique id (a uuid in the real code). -/
structure JSONRPCRequest where
  method : String
  params : List Param
  id : String
  deriving DecidableEq, Repr

/-- Modelled from the spec: `request.py` (which defines
`JSONRPCRequest.method_and_params_hash`) is not under src/.  Per the spec's
data model, identity and equality for deduplication purposes are derived
from `(method, params)` only, never from `id`. -/
def method_and_params_hash (r : JSONRPCRequest) : String × List Param :=
  (r.method, r.params)

/-- Boolean test used where client.py compares `method_and_params_hash()`
values of two requests. -/
def sameHash (a b : JSONRPCRequest) : Bool :=
  decide (method_and_params_hash a = method_and_params_hash b)

/-- The final `else` branch of `_cache_jsonrpc_request` (client.py
lines 473-484): append the request to the cache unless a request with an
identical `(method, params)` hash is already cached. -/
def appendIfNew (cache : List JSONRPCRequest) (r : JSONRPCRequest) :
    List JSONRPCRequest :=
  if cache.any (fun req => sameHash req r) then cache else cache ++ [r]

/-- The match test of the `set_sampling_strat*`-with-`none` branch of
`_cache_jsonrpc_request` (client.py lines 465-472): same method, same
params position 0 (namespace) and same params position 1 (sensor/filter).
Out-of-range positional access is a Python `IndexError`, rendered as
`Option.none`; the conjunction is evaluated left to right with
short-circuiting, exactly as Python evaluates
`req.method == r.method and req.params[0] == r.params[0] and
req.params[1] == r.params[1]`. -/
def stratRemoveCheck (r req : JSONRPCRequest) : Option Bool :=
  if req.method = r.method then
    match req.params[0]?, r.params[0]? with
    | some a, some a' =>
      if a = a' then
        match req.params[1]?, r.params[1]? with
        | some b, some b' => some (decide (b = b'))
        | _, _ => Option.none
      else some false
    | _, _ => Option.none
  else some false

/-- The cache remaining after the `set_sampling_strat*`-with-`none` branch
of `_cache_jsonrpc_request`: every cached request matched by
`stratRemoveCheck` is removed.  A raised `IndexError` while scanning is
`Option.none` (the Python exception propagates and the cache is left
unchanged by the caller). -/
def stratClearRemaining (r : JSONRPCRequest) :
    List JSONRPCRequest → Option (List JSONRPCRequest)
  | [] => some []
  | req :: rest => do
      let matched ← stratRemoveCheck r req
      let tail ← stratClearRemaining r rest
      pure (if matched then tail else req :: tail)

/-- `KATPortalClient._cache_jsonrpc_request` (client.py lines 424-487),
as a function from the current `_ws_jsonrpc_cache` and the request being
recorded to the new cache.  `Option.none` models a raised `IndexError`
(only possible for a `set_sampling_strat*` request whose params are
shorter than the positions the code indexes). -/
def cacheRequest (cache : List JSONRPCRequest) (r : JSONRPCRequest) :
    Option (List JSONRPCRequest) :=
  if r.method = "unsubscribe" then
    -- remove any cached subscribe with identical params; the unsubscribe
    -- itself is never appended
    some (cache.filter (fun req =>
      !(decide (req.method = "subscribe") && decide (req.params = r.params))))
  else if r.method.startsWith "set_sampling_strat" then
    -- index 2 of params is always the sampling strategy
    (r.params[2]?).bind (fun s =>
      if s = Param.str "none" then stratClearRemaining r cache
      else some (appendIfNew cache r))
  else some (appendIfNew cache r)

/-- The ledger invariant from the spec's data model: at most one cached
entry with a given `(method, params)` identity. -/
def DedupOK (cache : List JSONRPCRequest) : Prop :=
  cache.Pairwise (fun a b => method_and_params_hash a ≠ method_and_params_hash b)

/-- A request that the ledger actually caches: not an `unsubscribe`, and
not a strategy-clearing (`none`) or ill-formed `set_sampling_strat*`
call. -/
def Cacheable (r : JSONRPCRequest) : Prop :=
  r.method ≠ "unsubscribe" ∧
  (r.method.startsWith "set_sampling_strat" = true →
    ∃ s, r.params[2]? = some s ∧ s ≠ Param.str "none")

theorem stratClearRemaining_sublist (r : JSONRPCRequest) :
    ∀ {cache l : List JSONRPCRequest},
      stratClearRemaining r cache = some l → l.Sublist cache := by
  intro cache
  induction cache with
  | nil =>
      intro l h
      simp only [stratClearRemaining] at h
      cases h
      exact List.Sublist.refl []
  | cons req rest ih =>
      intro l h
      simp only [stratClearRemaining, Option.bind_eq_bind, Option.bind_eq_some] at h
      obtain ⟨matched, _, tail, htail, hl⟩ := h
      cases matched with
      | true =>
          cases hl
          exact (ih htail).cons req
      | false =>
          cases hl
          exact (ih htail).cons₂ req

theorem mem_appendIfNew {cache : List JSONRPCRequest} {r e : JSONRPCRequest}
    (h : e ∈ appendIfNew cache r) : e ∈ cache ∨ e = r := by
  unfold appendIfNew at h
  by_cases hany : cache.any (fun req => sameHash req r) = true
  · rw [if_pos hany] at h
    exact Or.inl h
  · rw [if_neg hany] at h
    rw [List.mem_append, List.mem_singleton] at h
    exact h

theorem cacheRequest_sublist_or_append (cache : List JSONRPCRequest)
    (r : JSONRPCRequest) {cache' : List JSONRPCRequest}
    (h : cacheRequest cache r = some cache') :
    cache'.Sublist cache ∨ cache' = appendIfNew cache r := by
  unfold cacheRequest at h
  by_cases hu : r.method = "unsubscribe"
  · rw [if_pos hu] at h
    cases h
    exact Or.inl (List.filter_sublist cache)
  · rw [if_neg hu] at h
    by_cases hs : r.method.startsWith "set_sampling_strat"
    · rw [if_pos hs] at h
      cases h2 : r.params[2]? with
      | none => rw [h2] at h; cases h
      | some s =>
          rw [h2, Option.some_bind] at h
          by_cases hn : s = Param.str "none"
          · rw [if_pos hn] at h
            exact Or.inl (stratClearRemaining_sublist r h)
          · rw [if_neg hn] at h
            cases h
            exact Or.inr rfl
    · rw [if_neg hs] at h
      cases h
      exact Or.inr rfl

theorem dedupOK_appendIfNew {cache : List JSONRPCRequest}
    (r : JSONRPCRequest) (hD : DedupOK cache) :
    DedupOK (appendIfNew cache r) := by
  unfold DedupOK at hD ⊢
  unfold appendIfNew
  by_cases hany : cache.any (fun req => sameHash req r) = true
  · rw [if_pos hany]
    exact hD
  · rw [if_neg hany]
    rw [List.pairwise_append]
    refine ⟨hD, List.pairwise_singleton _ _, ?_⟩
    intro a ha b hb
    rw [List.mem_singleton] at hb
    subst hb
    intro hcontra
    apply hany
    rw [List.any_eq_true]
    exact ⟨a, ha, by simp [sameHash, hcontra]⟩

/-- Inserting into a dedup-clean ledger preserves the invariant. -/
theorem dedupOK_cacheRequest {cache cache' : List JSONRPCRequest}
    {r : JSONRPCRequest} (hD : DedupOK cache)
    (h : cacheRequest cache r = some cache') : DedupOK cache' := by
  rcases cacheRequest_sublist_or_append cache r h with hsub | happ
  · exact List.Pairwise.sublist hsub hD
  · subst happ
    exact dedupOK_appendIfNew r hD

theorem countP_le_one_of_dedupOK {cache : List JSONRPCRequest}
    (r : JSONRPCRequest) (hD : DedupOK cache) :
    cache.countP (fun e => sameHash e r) ≤ 1 := by
  induction cache with
  | nil => simp
  | cons a rest ih =>
      unfold DedupOK at hD
      rw [List.pairwise_cons] at hD
      obtain ⟨ha, hrest⟩ := hD
      rw [List.countP_cons]
      have hih := ih hrest
      by_cases hma : sameHash a r = true
      · have hzero : rest.countP (fun e => sameHash e r) = 0 := by
          rw [List.countP_eq_zero]
          intro b hb hmb
          have h1 : method_and_params_hash a = method_and_params_hash r := by
            simpa [sameHash] using hma
          have h2 : method_and_params_hash b = method_and_params_hash r := by
            simpa [sameHash] using hmb
          exact ha b hb (h1.trans h2.symm)
        simp [hzero, hma]
      · simpa [hma] using hih

theorem countP_appendIfNew_eq_one {cache : List JSONRPCRequest}
    (r : JSONRPCRequest) (hD : DedupOK cache) :
    (appendIfNew cache r).countP (fun e => sameHash e r) = 1 := by
  unfold appendIfNew
  by_cases hany : cache.any (fun req => sameHash req r) = true
  · rw [if_pos hany]
    rw [List.any_eq_true] at hany
    obtain ⟨x, hx, hmx⟩ := hany
    have hpos : 0 < cache.countP (fun e => sameHash e r) :=
      List.countP_pos_iff.mpr ⟨x, hx, hmx⟩
    have hle : cache.countP (fun e => sameHash e r) ≤ 1 :=
      countP_le_one_of_dedupOK r hD
    omega
  · rw [if_neg hany]
    rw [List.countP_append]
    have hzero : cache.countP (fun e => sameHash e r) = 0 := by
      rw [List.countP_eq_zero]
      intro b hb hmb
      exact hany (List.any_eq_true.mpr ⟨b, hb, hmb⟩)
    rw [hzero]
    simp [sameHash]

theorem appendIfNew_idem (cache : List JSONRPCRequest) (r : JSONRPCRequest) :
    appendIfNew (appendIfNew cache r) r = appendIfNew cache r := by
  have hmem : (appendIfNew cache r).any (fun req => sameHash req r) = true := by
    unfold appendIfNew
    by_cases hany : cache.any (fun req => sameHash req r) = true
    · rw [if_pos hany]
      exact hany
    · rw [if_neg hany]
      rw [List.any_eq_true]
      exact ⟨r, by simp, by simp [sameHash]⟩
  generalize hL : appendIfNew cache r = L at hmem ⊢
  unfold appendIfNew
  rw [if_pos hmem]

theorem cacheRequest_of_cacheable {cache : List JSONRPCRequest}
    {r : JSONRPCRequest} (hc : Cacheable r) :
    cacheRequest cache r = some (appendIfNew cache r) := by
  obtain ⟨hu, hs⟩ := hc
  unfold cacheRequest
  rw [if_neg hu]
  by_cases hsw : r.method.startsWith "set_sampling_strat" = true
  · obtain ⟨s, h2, hn⟩ := hs hsw
    rw [if_pos hsw, h2, Option.some_bind, if_neg hn]
  · rw [if_neg hsw]

/-- C5: in every dedup-clean state of the Subscription Ledger, recording
any request keeps the ledger dedup-clean (at most one entry per
`(method, params)` identity); and recording the same cacheable request
twice yields exactly one cached entry with its `(method, params)`
identity. -/
theorem c5_ledger_dedup_invariant (cache : List JSONRPCRequest)
    (r : JSONRPCRequest) (hD : DedupOK cache) (hc : Cacheable r) :
    (∀ (r' : JSONRPCRequest) (cache' : List JSONRPCRequest),
        cacheRequest cache r' = some cache' → DedupOK cache') ∧
    (∃ c1 c2 : List JSONRPCRequest,
        cacheRequest cache r = some c1 ∧
        cacheRequest c1 r = some c2 ∧
        c2.countP (fun e => sameHash e r) = 1) := by
  refine ⟨fun r' cache' h => dedupOK_cacheRequest hD h, ?_⟩
  refine ⟨appendIfNew cache r, appendIfNew cache r,
    cacheRequest_of_cacheable hc, ?_, ?_⟩
  · rw [cacheRequest_of_cacheable hc, appendIfNew_idem]
  · exact countP_appendIfNew_eq_one r hD

/-- Concrete instance of the C5 theorem: recording the same subscribe
request twice on an empty ledger leaves exactly one cached entry. -/
theorem c5_ledger_dedup_invariant_witness :
    ∃ c1 c2 : List JSONRPCRequest,
      cacheRequest []
          ⟨"subscribe", [Param.str "alarms", Param.strList ["*"]], "id-1"⟩ = some c1 ∧
      cacheRequest c1
          ⟨"subscribe", [Param.str "alarms", Param.strList ["*"]], "id-1"⟩ = some c2 ∧
      c2.countP (fun e =>
        sameHash e ⟨"subscribe", [Param.str "alarms", Param.strList ["*"]], "id-1"⟩) = 1 :=
  (c5_ledger_dedup_invariant []
      ⟨"subscribe", [Param.str "alarms", Param.strList ["*"]], "id-1"⟩
      List.Pairwise.nil
      ⟨by decide, fun h => absurd h (by decide)⟩).2

/-- C6: recording `subscribe(p)` and then `unsubscribe(p)` with identical
params succeeds, leaves no subscribe entry with params `p`, adds nothing
that was not already cached (so the unsubscribe itself is never cached),
and in particular leaves an initially empty ledger empty. -/
theorem c6_unsubscribe_cancels_subscribe (cache : List JSONRPCRequest)
    (p : List Param) (i1 i2 : String) :
    ∃ c1 c2 : List JSONRPCRequest,
      cacheRequest cache ⟨"subscribe", p, i1⟩ = some c1 ∧
      cacheRequest c1 ⟨"unsubscribe", p, i2⟩ = some c2 ∧
      (∀ e ∈ c2, ¬(e.method = "subscribe" ∧ e.params = p)) ∧
      (∀ e ∈ c2, e ∈ cache) ∧
      (cache = [] → c2 = []) := by
  have hcache : Cacheable ⟨"subscribe", p, i1⟩ :=
    ⟨fun h => absurd (show ("subscribe" : String) = "unsubscribe" from h) (by decide),
     fun h => absurd
       (show String.startsWith "subscribe" "set_sampling_strat" = true from h)
       (by decide)⟩
  have hsub : cacheRequest cache ⟨"subscribe", p, i1⟩
      = some (appendIfNew cache ⟨"subscribe", p, i1⟩) :=
    cacheRequest_of_cacheable hcache
  have huns : cacheRequest (appendIfNew cache ⟨"subscribe", p, i1⟩)
        ⟨"unsubscribe", p, i2⟩
      = some ((appendIfNew cache ⟨"subscribe", p, i1⟩).filter (fun req =>
          !(decide (req.method = "subscribe") && decide (req.params = p)))) := by
    unfold cacheRequest
    rw [if_pos rfl]
  have hnosub : ∀ e ∈ (appendIfNew cache ⟨"subscribe", p, i1⟩).filter (fun req =>
      !(decide (req.method = "subscribe") && decide (req.params = p))),
      ¬(e.method = "subscribe" ∧ e.params = p) := by
    intro e he hcon
    obtain ⟨hm, hp⟩ := hcon
    rw [List.mem_filter] at he
    have := he.2
    simp [hm, hp] at this
  have hold : ∀ e ∈ (appendIfNew cache ⟨"subscribe", p, i1⟩).filter (fun req =>
      !(decide (req.method = "subscribe") && decide (req.params = p))),
      e ∈ cache := by
    intro e he
    rw [List.mem_filter] at he
    obtain ⟨he1, he2⟩ := he
    rcases mem_appendIfNew he1 with h | h
    · exact h
    · exfalso
      subst h
      simp at he2
  refine ⟨_, _, hsub, huns, hnosub, hold, ?_⟩
  intro hnil
  rw [List.eq_nil_iff_forall_not_mem]
  intro e he
  have := hold e he
  rw [hnil] at this
  simp at this

/-- An opaque JSON payload (a result or error object carried in a JSON-RPC
response). -/
abbrev Payload := String

/-- The state of a `tornado.gen.Future` used as a pending-result
placeholder: unresolved, resolved with a value via `set_result`, or failed
with an exception via `set_exception`. -/
inductive FutureState where
  | pending : FutureState
  | resolved : Option Payload → FutureState
  | failed : String → FutureState
  deriving DecidableEq, Repr

/-- Python dict update `m[k] = v` on an insertion-ordered dict rendered as
an association list: overwrite in place when the key exists, else append. -/
def assocUpdate {α : Type} (m : List (String × α)) (k : String) (v : α) :
    List (String × α) :=
  m.map (fun q => if q.1 = k then (k, v) else q)

/-- Python dict assignment `m[k] = v`. -/
def assocInsert {α : Type} (m : List (String × α)) (k : String) (v : α) :
    List (String × α) :=
  if (m.lookup k).isSome then assocUpdate m k v else m ++ [(k, v)]

/-- Python dict deletion `del m[k]`. -/
def assocErase {α : Type} (m : List (String × α)) (k : String) :
    List (String × α) :=
  m.filter (fun q => !(decide (q.1 = k)))

/-- The mutable fields of `KATPortalClient` relevant to the connection
lifecycle and the Correlator: `_ws is not None` is `connected`, plus
`_disconnect_issued`, the heart-beat `PeriodicCallback`'s running state,
`_ws_jsonrpc_cache`, `_pending_requests` and the sequence of frames
written to the websocket. -/
structure ClientState where
  connected : Bool
  disconnectIssued : Bool
  heartbeatRunning : Bool
  wsJsonrpcCache : List JSONRPCRequest
  pendingRequests : List (String × FutureState)
  outbox : List JSONRPCRequest
  deriving DecidableEq, Repr

/-- Result of `_send` as seen by its caller: either the id of a stored,
still-unresolved pending future, or a future already failed with an
exception (`set_exception`) before being returned. -/
inductive SendResult where
  | pendingId : String → SendResult
  | immediateError : String → SendResult
  deriving DecidableEq, Repr

/-- `KATPortalClient._send` (client.py lines 638-649).  When connected, a
Pending Operation keyed by the request id is stored, the serialized
request is written to the websocket, and the unresolved future is
returned.  When not connected, the future is failed immediately with the
"not connected" error; nothing is stored and nothing is written. -/
def send (st : ClientState) (req : JSONRPCRequest) :
    ClientState × SendResult :=
  if st.connected then
    ({ st with
        pendingRequests := assocInsert st.pendingRequests req.id FutureState.pending,
        outbox := st.outbox ++ [req] },
     SendResult.pendingId req.id)
  else
    (st, SendResult.immediateError "Failed to send request! Not connected.")

/-- `KATPortalClient.disconnect` (client.py lines 410-422): stop the
heart beat, set `_disconnect_issued`, clear `_ws_jsonrpc_cache`, and close
the websocket when open.  `_pending_requests` is left untouched. -/
def disconnect (st : ClientState) : ClientState :=
  { st with
      heartbeatRunning := false,
      disconnectIssued := true,
      wsJsonrpcCache := [],
      connected := false }

/-- `KATPortalClient._connect` (client.py lines 346-390), with the
websocket-connect outcome supplied as the oracle `wsConnectOk`.  The body
runs under the connecting lock; its first statement clears
`_disconnect_issued`.  When already connected nothing else happens.
Otherwise the heart beat is stopped, the websocket connect is attempted,
and on success the heart beat is started.  On failure the exception is
logged; a retry is scheduled only when `reconnecting` (not modelled as
state).  The ledger replay performed on reconnect is modelled separately
by `resendAll`/`connectStep`. -/
def connectAttempt (st : ClientState) (reconnecting wsConnectOk : Bool) :
    ClientState :=
  let st0 := { st with disconnectIssued := false }
  if st0.connected then st0
  else
    let st1 := { st0 with heartbeatRunning := false }
    if wsConnectOk then
      { st1 with connected := true, heartbeatRunning := true }
    else st1

/-- What `_websocket_message` does with a null frame. -/
inductive NullFrameAction where
  | reconnect : NullFrameAction
  | ignore : NullFrameAction
  deriving DecidableEq, Repr

/-- The `msg is None` branch of `KATPortalClient._websocket_message`
(client.py lines 530-537): when no disconnect was issued, close the local
handle and call `_connect(reconnecting=True)`; otherwise do nothing. -/
def websocketNullFrame (st : ClientState) : ClientState × NullFrameAction :=
  if !st.disconnectIssued then
    ({ st with connected := false }, NullFrameAction.reconnect)
  else (st, NullFrameAction.ignore)

/-- An inbound JSON-RPC response frame `{id, error?, result?}`.  The
`error` field is `some` exactly when Python's `msg.get('error', None)` is
truthy. -/
structure RPCMessage where
  id : String
  error : Option Payload
  result : Option Payload
  deriving DecidableEq, Repr

/-- The value passed to `future.set_result` by
`_process_json_rpc_message`: the error payload when present, else the
result payload. -/
def resolutionValue (msg : RPCMessage) : Option Payload :=
  match msg.error with
  | some e => some e
  | Option.none => msg.result

/-- `KATPortalClient._process_json_rpc_message` (client.py lines 623-636):
look up the pending future by the message id; when found, resolve it via
`set_result` with the error payload if present else the result payload.
The entry is not removed from `_pending_requests`.  When no pending
request matches, the message is logged and dropped. -/
def processJsonRpcMessage (pending : List (String × FutureState))
    (msg : RPCMessage) : List (String × FutureState) :=
  if (pending.lookup msg.id).isSome then
    assocUpdate pending msg.id (FutureState.resolved (resolutionValue msg))
  else pending

/-- The remainder of `KATPortalClient.subscribe` after `_send` (client.py
lines 741-744), given the state the awaited future ended in: a failed
future re-raises at the `yield`; a resolved future (even one carrying an
error payload) lets the method cache the request and return the value.
An unresolved future means the `yield` is still suspended; the model
returns an error marker for that (unreachable) case. -/
def subscribeFinish (cache : List JSONRPCRequest) (req : JSONRPCRequest)
    (f : FutureState) :
    Except String (List JSONRPCRequest × Option Payload) :=
  match f with
  | FutureState.resolved v =>
      match cacheRequest cache req with
      | some c => Except.ok (c, v)
      | Option.none => Except.error "IndexError"
  | FutureState.failed e => Except.error e
  | FutureState.pending => Except.error "unresolved"

/-- `KATPortalClient._resend_subscriptions_and_strategies` (client.py
lines 489-499): resend every cached request in insertion order, awaiting
each (`result = yield self._send(req)`).  `net` is the oracle giving the
outcome of one send-and-await: `Except.ok v` when the awaited future is
resolved with value `v` (even an error payload), `Except.error e` when
the send raises or the future is failed, which propagates out of the loop
uncaught. -/
def resendAll (net : JSONRPCRequest → Except String (Option Payload)) :
    List JSONRPCRequest →
    Except String (List (JSONRPCRequest × Option Payload))
  | [] => Except.ok []
  | req :: rest => do
      let v ← net req
      let tail ← resendAll net rest
      pure ((req, v) :: tail)

/-- Outcome of one `_connect` attempt. -/
inductive ConnectResult where
  | connectedOk : ConnectResult
  | retryLater : ConnectResult
  | failedNoRetry : ConnectResult
  deriving DecidableEq, Repr

/-- The control flow of `_connect`'s try/except (client.py lines 369-390):
when the websocket connects and (on the reconnect path) the ledger replay
raises, the exception is caught, logged, and a retry is scheduled; when
the websocket connect itself fails the same split on `reconnecting`
applies.  `replay` is only consulted on the reconnect path. -/
def connectStep (reconnecting wsConnectOk : Bool)
    (replay : Except String Unit) : ConnectResult :=
  if wsConnectOk then
    match reconnecting, replay with
    | true, Except.error _ => ConnectResult.retryLater
    | _, _ => ConnectResult.connectedOk
  else if reconnecting then ConnectResult.retryLater
  else ConnectResult.failedNoRetry

theorem lookup_assocUpdate {α : Type} (m : List (String × α)) (k : String)
    (v : α) (h : (m.lookup k).isSome = true) :
    (assocUpdate m k v).lookup k = some v := by
  induction m with
  | nil => simp [List.lookup] at h
  | cons q rest ih =>
      obtain ⟨a, b⟩ := q
      by_cases hk : a = k
      · subst hk
        simp only [assocUpdate, List.map_cons]
        simp [List.lookup]
      · have hne : (k == a) = false :=
          beq_eq_false_iff_ne.mpr (fun hc => hk hc.symm)
        simp only [List.lookup, hne] at h
        simp only [assocUpdate, List.map_cons, if_neg hk]
        simp only [List.lookup, hne]
        exact ih h

theorem mapfst_assocUpdate {α : Type} (m : List (String × α)) (k : String)
    (v : α) : (assocUpdate m k v).map Prod.fst = m.map Prod.fst := by
  induction m with
  | nil => rfl
  | cons q rest ih =>
      by_cases hk : q.1 = k
      · simp only [assocUpdate, List.map_cons, if_pos hk] at *
        rw [ih]
        simp [hk]
      · simp only [assocUpdate, List.map_cons, if_neg hk] at *
        rw [ih]

theorem lookup_assocInsert {α : Type} (m : List (String × α)) (k : String)
    (v : α) : (assocInsert m k v).lookup k = some v := by
  unfold assocInsert
  by_cases h : (m.lookup k).isSome = true
  · rw [if_pos h]
    exact lookup_assocUpdate m k v h
  · rw [if_neg h]
    induction m with
    | nil => simp [List.lookup]
    | cons q rest ih =>
        obtain ⟨a, b⟩ := q
        by_cases hk : (k == a) = true
        · exfalso
          apply h
          simp [List.lookup, hk]
        · have hne : (k == a) = false := by
            cases hkb : (k == a)
            · rfl
            · exact absurd hkb hk
          simp only [List.cons_append, List.lookup, hne] at h ⊢
          exact ih h

/-- C7: sending a request while the websocket is not connected leaves the
client state completely unchanged — nothing is written to the channel and
no Pending Operation is stored — and the returned future is already
failed with the "not connected" error rather than left outstanding. -/
theorem c7_send_not_connected (st : ClientState) (req : JSONRPCRequest)
    (h : st.connected = false) :
    send st req =
      (st, SendResult.immediateError "Failed to send request! Not connected.") := by
  unfold send
  rw [h]
  simp

/-- Concrete instance of the C7 theorem. -/
theorem c7_send_not_connected_witness :
    send ⟨false, false, false, [], [], []⟩
        ⟨"subscribe", [Param.str "ns", Param.strList ["*"]], "id-7"⟩ =
      (⟨false, false, false, [], [], []⟩,
       SendResult.immediateError "Failed to send request! Not connected.") :=
  c7_send_not_connected ⟨false, false, false, [], [], []⟩
    ⟨"subscribe", [Param.str "ns", Param.strList ["*"]], "id-7"⟩ rfl

/-- C4 as stated is false: a Pending Operation is never removed from
`_pending_requests`.  At this concrete input the matching response has
arrived and resolved the future, yet the entry is still in the map; and
`disconnect` (connection teardown) also leaves the map untouched. -/
theorem c4_pending_never_removed :
    (processJsonRpcMessage [("1", FutureState.pending)]
        ⟨"1", Option.none, some "ok"⟩).lookup "1"
      = some (FutureState.resolved (some "ok")) ∧
    (disconnect
        ⟨true, false, true, [], [("1", FutureState.pending)], []⟩).pendingRequests
      = [("1", FutureState.pending)] := by
  constructor
  · rfl
  · rfl

/-- C4 amended: exactly one Pending Operation is created (stored under the
request's id) when a request is sent while connected, and a matching
response resolves it in place; but the entry is never removed from the
pending-request map — neither when the response arrives nor when the
connection is torn down by `disconnect`. -/
theorem c4_pending_lifecycle (st : ClientState) (req : JSONRPCRequest)
    (h : st.connected = true) :
    (send st req).1.pendingRequests.lookup req.id = some FutureState.pending ∧
    (∀ (pending : List (String × FutureState)) (msg : RPCMessage),
        (processJsonRpcMessage pending msg).map Prod.fst = pending.map Prod.fst) ∧
    (∀ st' : ClientState, (disconnect st').pendingRequests = st'.pendingRequests) := by
  refine ⟨?_, ?_, fun st' => rfl⟩
  · unfold send
    rw [h]
    simp only [if_pos]
    exact lookup_assocInsert st.pendingRequests req.id FutureState.pending
  · intro pending msg
    unfold processJsonRpcMessage
    by_cases hm : (pending.lookup msg.id).isSome = true
    · rw [if_pos hm]
      exact mapfst_assocUpdate pending msg.id _
    · rw [if_neg hm]

/-- Concrete instance of the C4 amended theorem. -/
theorem c4_pending_lifecycle_witness :
    (send ⟨true, false, true, [], [], []⟩
        ⟨"add", [Param.str "1"], "id-4"⟩).1.pendingRequests.lookup "id-4"
      = some FutureState.pending :=
  (c4_pending_lifecycle ⟨true, false, true, [], [], []⟩
    ⟨"add", [Param.str "1"], "id-4"⟩ rfl).1

/-- C9: an inbound response whose id matches a pending request and whose
payload carries a (truthy) error resolves the future with the error
payload as an ordinary result value — never as a raised exception — and a
subscribe call whose awaited future ended in that resolved state
completes normally, still applies the request to the ledger cache, and
returns the error payload. -/
theorem c9_error_resolved_as_result
    (pending : List (String × FutureState)) (msg : RPCMessage) (e : Payload)
    (cache : List JSONRPCRequest) (req : JSONRPCRequest)
    (hp : (pending.lookup msg.id).isSome = true)
    (he : msg.error = some e)
    (hs : req.method = "subscribe") :
    (processJsonRpcMessage pending msg).lookup msg.id
      = some (FutureState.resolved (some e)) ∧
    subscribeFinish cache req (FutureState.resolved (some e))
      = Except.ok (appendIfNew cache req, some e) := by
  constructor
  · unfold processJsonRpcMessage
    rw [if_pos hp]
    have hv : resolutionValue msg = some e := by
      unfold resolutionValue
      rw [he]
    rw [hv]
    exact lookup_assocUpdate pending msg.id _ hp
  · have hcache : Cacheable req := by
      constructor
      · rw [hs]
        decide
      · rw [hs]
        intro hsw
        exact absurd hsw (by decide)
    unfold subscribeFinish
    rw [cacheRequest_of_cacheable hcache]

/-- Concrete instance of the C9 theorem. -/
theorem c9_error_resolved_as_result_witness :
    (processJsonRpcMessage [("9", FutureState.pending)]
        ⟨"9", some "backend unavailable", Option.none⟩).lookup "9"
      = some (FutureState.resolved (some "backend unavailable")) ∧
    subscribeFinish [] ⟨"subscribe", [Param.str "ns", Param.strList ["*"]], "9"⟩
        (FutureState.resolved (some "backend unavailable"))
      = Except.ok
          (appendIfNew [] ⟨"subscribe", [Param.str "ns", Param.strList ["*"]], "9"⟩,
           some "backend unavailable") :=
  c9_error_resolved_as_result [("9", FutureState.pending)]
    ⟨"9", some "backend unavailable", Option.none⟩ "backend unavailable"
    [] ⟨"subscribe", [Param.str "ns", Param.strList ["*"]], "9"⟩
    rfl rfl rfl

/-- C3 as stated is false: a send failure on the first ledger entry (for
example the connection dropping again mid-replay, so `_send` fails its
future with the "not connected" exception, which the bare `yield`
re-raises inside the replay loop) aborts the replay — the second entry is
never resent, the loop has no try/except — and the raised exception makes
the surrounding reconnect attempt fail (it is caught in `_connect`, which
schedules a retry).  Here the second entry's send would have succeeded. -/
theorem c3_send_failure_aborts_replay :
    resendAll
        (fun req =>
          if req.id = "a" then
            Except.error "Failed to send request! Not connected."
          else Except.ok (some "1"))
        [⟨"subscribe", [Param.str "ns1", Param.strList ["*"]], "a"⟩,
         ⟨"subscribe", [Param.str "ns2", Param.strList ["*"]], "b"⟩]
      = Except.error "Failed to send request! Not connected." ∧
    connectStep true true (Except.error "Failed to send request! Not connected.")
      = ConnectResult.retryLater := by
  constructor
  · rfl
  · rfl

/-- C3 amended: replay resends every cached entry in original insertion
order, awaiting each in turn, and a server response carrying an error
payload is delivered as that entry's logged result without aborting the
replay of the remaining entries; but an exception raised while resending
one entry (e.g. a "not connected" send failure) aborts the replay of the
remainder and fails that reconnect attempt, which is then retried. -/
theorem c3_replay_order_when_sends_complete
    (cache : List JSONRPCRequest)
    (net : JSONRPCRequest → Except String (Option Payload))
    (h : ∀ req ∈ cache, ∃ v, net req = Except.ok v) :
    ∃ outcomes, resendAll net cache = Except.ok outcomes ∧
      outcomes.map Prod.fst = cache := by
  induction cache with
  | nil => exact ⟨[], rfl, rfl⟩
  | cons req rest ih =>
      obtain ⟨v, hv⟩ := h req (List.mem_cons_self req rest)
      obtain ⟨tail, htail, hmap⟩ :=
        ih (fun r hr => h r (List.mem_cons_of_mem req hr))
      refine ⟨(req, v) :: tail, ?_, ?_⟩
      · unfold resendAll
        rw [hv, htail]
        rfl
      · simp [hmap]

/-- Concrete instance of the C3 amended theorem: a response carrying an
error payload still lets the replay complete over all entries in order. -/
theorem c3_replay_order_when_sends_complete_witness :
    ∃ outcomes,
      resendAll (fun _ => Except.ok (some "error: backend unavailable"))
          [⟨"subscribe", [Param.str "ns1", Param.strList ["*"]], "a"⟩,
           ⟨"set_sampling_strategy",
             [Param.str "ns1", Param.str "s", Param.str "period 1",
              Param.pyBool false], "b"⟩]
        = Except.ok outcomes ∧
      outcomes.map Prod.fst
        = [⟨"subscribe", [Param.str "ns1", Param.strList ["*"]], "a"⟩,
           ⟨"set_sampling_strategy",
             [Param.str "ns1", Param.str "s", Param.str "period 1",
              Param.pyBool false], "b"⟩] :=
  c3_replay_order_when_sends_complete
    [⟨"subscribe", [Param.str "ns1", Param.strList ["*"]], "a"⟩,
     ⟨"set_sampling_strategy",
       [Param.str "ns1", Param.str "s", Param.str "period 1",
        Param.pyBool false], "b"⟩]
    (fun _ => Except.ok (some "error: backend unavailable"))
    (fun _ _ => ⟨some "error: backend unavailable", rfl⟩)

/-- C10: `connect()` (i.e. `_connect(reconnecting=False)`) clears the
`_disconnect_issued` flag as its first action under the lock, so the flag
is `false` afterwards whether or not the websocket connect succeeded; a
null frame observed in that state triggers the auto-reconnect path. -/
theorem c10_connect_clears_disconnect_flag (st : ClientState)
    (wsConnectOk : Bool) :
    (connectAttempt st false wsConnectOk).disconnectIssued = false ∧
    (websocketNullFrame (connectAttempt st false wsConnectOk)).2
      = NullFrameAction.reconnect := by
  have hflag : (connectAttempt st false wsConnectOk).disconnectIssued = false := by
    unfold connectAttempt
    by_cases hc : st.connected = true
    · simp [hc]
    · cases wsConnectOk <;> simp [hc]
  refine ⟨hflag, ?_⟩
  unfold websocketNullFrame
  rw [hflag]
  simp

/-- `MAX_SAMPLES_PER_HISTORY_QUERY` (client.py line 38). -/
def MAX_SAMPLES_PER_HISTORY_QUERY : ℕ := 1000000

/-- `SAMPLE_HISTORY_REQUEST_MULTIPLIER_TO_SEC` (client.py line 45); wire
timestamps arrive in milliseconds and are scaled back to seconds. -/
def SAMPLE_HISTORY_REQUEST_MULTIPLIER_TO_SEC : ℚ := 1000

/-- A sensor sample as built by `_process_redis_message`: either a
`SensorSample` namedtuple (timestamp, value, status) or a
`SensorSampleValueTs` namedtuple (timestamp, value_timestamp, value,
status), depending on the query's `include_value_ts` flag. -/
inductive SSample where
  | plain : ℚ → String → String → SSample
  | withTs : ℚ → ℚ → String → String → SSample
  deriving DecidableEq, Repr

/-- The sort key used by `sensor_history` (`sort_by_timestamp`, client.py
lines 1284-1285). -/
def SSample.timestamp : SSample → ℚ
  | SSample.plain t _ _ => t
  | SSample.withTs t _ _ _ => t

/-- `sorted(state['samples'], key=sort_by_timestamp)` (client.py
line 1287). -/
def sortByTimestamp (l : List SSample) : List SSample :=
  l.mergeSort (fun a b => decide (a.timestamp ≤ b.timestamp))

theorem length_sortByTimestamp (l : List SSample) :
    (sortByTimestamp l).length = l.length :=
  List.length_mergeSort l

/-- One field of a raw 6-field wire sample row (integers for the
timestamp fields, strings for value/name/status). -/
inductive WireField where
  | num : ℤ → WireField
  | str : String → WireField
  deriving DecidableEq, Repr

/-- The per-query state dict created by `sensor_history` (client.py
lines 1235-1241) and mutated by `_process_redis_message`. -/
structure HistoryQueryState where
  sensor : String
  doneEventSet : Bool
  numSamplesPending : ℤ
  includeValueTs : Bool
  samples : List SSample
  deriving DecidableEq, Repr

/-- Conversion of one 6-field wire row to a sample (client.py
lines 585-608): positions 0 and 1 are millisecond timestamps scaled to
seconds, position 3 is the value and position 5 the status; the
value-timestamp shape is chosen by the query's `include_value_ts` flag.
A 6-field row whose fields are not of the expected types makes the Python
arithmetic raise, rendered as `Option.none`. -/
def convertRow (includeValueTs : Bool) (row : List WireField) :
    Option SSample :=
  match row with
  | [WireField.num t, WireField.num vt, _, WireField.str v, _, WireField.str s] =>
      some (if includeValueTs then
        SSample.withTs ((t : ℚ) / SAMPLE_HISTORY_REQUEST_MULTIPLIER_TO_SEC)
          ((vt : ℚ) / SAMPLE_HISTORY_REQUEST_MULTIPLIER_TO_SEC) v s
      else
        SSample.plain ((t : ℚ) / SAMPLE_HISTORY_REQUEST_MULTIPLIER_TO_SEC) v s)
  | _ => Option.none

/-- The sample-list branch of `_process_redis_message` (client.py
lines 583-611): every row of length 6 is converted and accepted in order,
rows of any other length are silently dropped.  The returned list is the
accepted samples; its length is the `num_received` counter. -/
def processSampleRows (includeValueTs : Bool) :
    List (List WireField) → Option (List SSample)
  | [] => some []
  | row :: rest =>
      if row.length = 6 then do
        let s ← convertRow includeValueTs row
        let tail ← processSampleRows includeValueTs rest
        pure (s :: tail)
      else processSampleRows includeValueTs rest

/-- Effect of one sample-list publication on the query state: accepted
samples are appended (with no cap or truncation) and the pending counter
is decremented by the number accepted. -/
def applySampleRows (q : HistoryQueryState) (rows : List (List WireField)) :
    Option HistoryQueryState :=
  match processSampleRows q.includeValueTs rows with
  | some accepted =>
      some { q with
        samples := q.samples ++ accepted,
        numSamplesPending := q.numSamplesPending - accepted.length }
  | Option.none => Option.none

/-- Effect of one `sample_history` inform message on the query state
(client.py lines 573-582): add `num_samples_to_be_published` to the
pending counter and set the done event when the `done` flag is true. -/
def applyInform (q : HistoryQueryState) (numNew : ℤ) (done : Bool) :
    HistoryQueryState :=
  { q with
      numSamplesPending := q.numSamplesPending + numNew,
      doneEventSet := q.doneEventSet || done }

/-- The client state seen by the History Synchronizer: the set of
namespaces currently subscribed on the portal (affected by the
`subscribe`/`unsubscribe` calls `sensor_history` makes) and the
`_sensor_history_states` dict. -/
structure HistClientState where
  subscribed : List String
  historyStates : List (String × HistoryQueryState)
  deriving DecidableEq, Repr

/-- The error raised by `sensor_history` (`SensorHistoryRequestError`):
either the chunked-download request was rejected, or the wait for the
done event timed out. -/
inductive SensorHistoryError where
  | requestError : SensorHistoryError
  | timedOut : SensorHistoryError
  deriving DecidableEq, Repr

/-- `KATPortalClient.sensor_history` (client.py lines 1192-1300) from the
point where the per-query state is created, with oracles for the
chunked-download acceptance (`accepted`, the `data['result'] ==
'success'` check), for whether the done event was set within
`timeout_sec` (`doneInTime`), and for the samples accumulated into the
query state by `_process_redis_message` while waiting (`accumulated`).
Returns the final client state, the call outcome, and whether the
sample-cap warning was logged.  On the success path only, the result is
the timestamp-sorted copy of the accumulated samples, the namespace is
unsubscribed and the query state deleted; both error paths raise
immediately, skipping that cleanup. -/
def sensorHistoryRun (st : HistClientState) (ns sensor : String)
    (includeValueTs : Bool) (accepted doneInTime : Bool)
    (accumulated : List SSample) :
    HistClientState × Except SensorHistoryError (List SSample) × Bool :=
  let state0 : HistoryQueryState :=
    { sensor := sensor, doneEventSet := false, numSamplesPending := 0,
      includeValueTs := includeValueTs, samples := [] }
  let st1 : HistClientState :=
    { subscribed := st.subscribed ++ [ns],
      historyStates := assocInsert st.historyStates ns state0 }
  if accepted then
    let stateW : HistoryQueryState :=
      { state0 with samples := accumulated, doneEventSet := doneInTime }
    let st2 : HistClientState :=
      { st1 with historyStates := assocInsert st1.historyStates ns stateW }
    if doneInTime then
      let result := sortByTimestamp accumulated
      let warned := decide (MAX_SAMPLES_PER_HISTORY_QUERY ≤ result.length)
      let st3 : HistClientState :=
        { subscribed := st2.subscribed.filter (fun x => !(decide (x = ns))),
          historyStates := assocErase st2.historyStates ns }
      (st3, Except.ok result, warned)
    else (st2, Except.error SensorHistoryError.timedOut, false)
  else (st1, Except.error SensorHistoryError.requestError, false)

/-- C1 as stated is false: at this concrete input the chunked-download
request was accepted, no done marker arrived within the budget, and the
call fails with the timeout error — but the partially accumulated query
state is still in `_sensor_history_states` and the private namespace is
still subscribed, because the raise skips the cleanup that only the
success path performs. -/
theorem c1_timeout_cleanup_skipped :
    (sensorHistoryRun ⟨[], []⟩ "n-1" "anc_mean_wind_speed" false true false
        [SSample.plain 1 "5.07" "nominal"]).2.1
      = Except.error SensorHistoryError.timedOut ∧
    (sensorHistoryRun ⟨[], []⟩ "n-1" "anc_mean_wind_speed" false true false
        [SSample.plain 1 "5.07" "nominal"]).1.subscribed = ["n-1"] ∧
    ((sensorHistoryRun ⟨[], []⟩ "n-1" "anc_mean_wind_speed" false true false
        [SSample.plain 1 "5.07" "nominal"]).1.historyStates.lookup "n-1").isSome
      = true := by
  refine ⟨rfl, rfl, rfl⟩

/-- C1 amended: when the accepted request's done marker does not arrive
within the timeout budget, the call fails with the history-request
timeout error, but the per-query state (with its partially accumulated
samples) remains in `_sensor_history_states` and the private namespace
remains subscribed when the call ends. -/
theorem c1_timeout_raises_but_preserves_state (st : HistClientState)
    (ns sensor : String) (includeValueTs : Bool)
    (accumulated : List SSample) :
    (sensorHistoryRun st ns sensor includeValueTs true false accumulated).2.1
      = Except.error SensorHistoryError.timedOut ∧
    ns ∈ (sensorHistoryRun st ns sensor includeValueTs true false
        accumulated).1.subscribed ∧
    ∃ q, (sensorHistoryRun st ns sensor includeValueTs true false
            accumulated).1.historyStates.lookup ns = some q ∧
      q.samples = accumulated := by
  refine ⟨rfl, ?_, ?_⟩
  · show ns ∈ st.subscribed ++ [ns]
    exact List.mem_append_right _ (List.mem_singleton.mpr rfl)
  · exact ⟨_, lookup_assocInsert _ ns _, rfl⟩

/-- C8 as stated is false: the client performs no truncation, so when the
portal publishes more rows than the requested limit (here one sample more
than `MAX_SAMPLES_PER_HISTORY_QUERY`), the successful call returns a list
strictly longer than the configured maximum. -/
theorem c8_cap_can_be_exceeded :
    ∃ l, (sensorHistoryRun ⟨[], []⟩ "n-8" "s" false true true
        (List.replicate (MAX_SAMPLES_PER_HISTORY_QUERY + 1)
          (SSample.plain 0 "v" "nominal"))).2.1 = Except.ok l ∧
      MAX_SAMPLES_PER_HISTORY_QUERY < l.length := by
  refine ⟨sortByTimestamp (List.replicate (MAX_SAMPLES_PER_HISTORY_QUERY + 1)
    (SSample.plain 0 "v" "nominal")), rfl, ?_⟩
  rw [length_sortByTimestamp, List.length_replicate]
  omega

/-- C8 amended: the accumulation path appends every accepted sample with
no client-side cap, the successful result is exactly the sorted
accumulation (same length, no truncation), and the warning is raised
precisely when the result length reaches `MAX_SAMPLES_PER_HISTORY_QUERY`;
the bound on the result length therefore holds only if the portal honours
the `limit` parameter sent with the request. -/
theorem c8_no_truncation_warn_iff_cap (st : HistClientState)
    (ns sensor : String) (includeValueTs : Bool)
    (accumulated : List SSample) :
    (∃ l, (sensorHistoryRun st ns sensor includeValueTs true true
            accumulated).2.1 = Except.ok l ∧
       l.length = accumulated.length ∧
       ((sensorHistoryRun st ns sensor includeValueTs true true
            accumulated).2.2 = true ↔
         MAX_SAMPLES_PER_HISTORY_QUERY ≤ l.length)) ∧
    (∀ (q : HistoryQueryState) (rows : List (List WireField))
        (q' : HistoryQueryState),
       applySampleRows q rows = some q' →
       ∃ accepted, q'.samples = q.samples ++ accepted) := by
  constructor
  · refine ⟨sortByTimestamp accumulated, rfl, length_sortByTimestamp _, ?_⟩
    show decide (MAX_SAMPLES_PER_HISTORY_QUERY
        ≤ (sortByTimestamp accumulated).length) = true ↔ _
    exact decide_eq_true_iff
  · intro q rows q' h
    unfold applySampleRows at h
    cases hp : processSampleRows q.includeValueTs rows with
    | none => rw [hp] at h; cases h
    | some accepted =>
        rw [hp] at h
        cases h
        exact ⟨accepted, rfl⟩

/-- A Python value passed as an argument in the `sensors_histories` →
`sensor_history` call (a bool as documented, or the float that the code
actually passes). -/
inductive PyValue where
  | pyBool : Bool → PyValue
  | num : ℚ → PyValue
  deriving DecidableEq, Repr

/-- The positional bindings of one inner `sensor_history` call: its
signature is `sensor_history(sensor_name, start_time_sec, end_time_sec,
include_value_ts=False, timeout_sec=300)` (client.py lines 1192-1194). -/
structure SensorHistoryCall where
  sensor_name : String
  start_time_sec : ℚ
  end_time_sec : ℚ
  include_value_ts : PyValue
  timeout_sec : ℚ
  deriving DecidableEq, Repr

/-- The loop body of `KATPortalClient.sensors_histories` (client.py
lines 1349-1357), as the sequence of inner `sensor_history` call
bindings.  The code executes
`self.sensor_history(sensor, start_time_sec, end_time_sec,
timeout_left_sec)`: the shrinking budget `timeout_left_sec =
timeout_sec - elapsed_time_sec` is bound positionally to the
`include_value_ts` parameter, `timeout_sec` keeps its default of 300, and
the caller's `include_value_ts` flag is never forwarded.  `elapsed` is
the wall-clock oracle giving `time.time() - request_start_sec` at each
iteration. -/
def sensors_histories_calls (sensors : List String)
    (start_time_sec end_time_sec : ℚ) (include_value_ts : Bool)
    (timeout_sec : ℚ) (elapsed : ℕ → ℚ) : List SensorHistoryCall :=
  sensors.enum.map (fun p =>
    { sensor_name := p.2,
      start_time_sec := start_time_sec,
      end_time_sec := end_time_sec,
      include_value_ts := PyValue.num (timeout_sec - elapsed p.1),
      timeout_sec := 300 })

/-- C2: the code does not behave as claimed — evaluating the loop at a
one-sensor input with `include_value_ts=True`, `timeout_sec=100` and no
elapsed time shows the inner call receives the remaining budget (100) as
its `include_value_ts` argument and runs with the default 300-second
timeout, instead of receiving the caller's flag and the shrunk budget. -/
theorem c2_timeout_bound_to_include_value_ts :
    sensors_histories_calls ["anc_mean_wind_speed"] 0 10 true 100 (fun _ => 0)
      = [{ sensor_name := "anc_mean_wind_speed",
           start_time_sec := 0,
           end_time_sec := 10,
           include_value_ts := PyValue.num 100,
           timeout_sec := 300 }] := by
  have h100 : (100 : ℚ) - (0 : ℚ) = 100 := by norm_num
  simp only [sensors_histories_calls, List.enum, List.enumFrom, List.map_cons,
    List.map_nil, h100]

end Katportal
